import Mathlib

/-!
Shallow embedding of the form layout and focus-navigation core of
`form.go` (package tview, litmusautomation fork).

Modelling conventions:
* Go `int` is modelled as `Int` (no overflow is exercised by the claims);
* `tcell.Color` is modelled as `Int`; in tcell v1 `ColorBlack = 0`;
* Go slices are Lean lists; `getD` stands for Go indexing at positions
  that are in range under the stated hypotheses (Go panics out of range,
  which is what claim C5 is about);
* form items and buttons are external collaborators; they are modelled by
  records carrying exactly the attributes `form.go` reads from them
  (label width, field width, alignment, border padding, rect height,
  disabled flag, hidden flag).  Element identities (`GetID`) are modelled
  as list positions, i.e. identities are pairwise distinct, which is how
  the surrounding library allocates them.
-/

namespace TviewForm

/-- Alignment constants from util.go: AlignLeft, AlignCenter, AlignRight = 0, 1, 2. -/
def AlignLeft : Int := 0

def AlignCenter : Int := 1

def AlignRight : Int := 2

abbrev Color := Int

/-- tcell v1 color constant ColorBlack (= 0); what matters for the claims is
only that it is a fixed constant, independent of the form configuration. -/
def colorBlack : Color := 0

/-- DefaultFormFieldWidth (form.go line 10). -/
def DefaultFormFieldWidth : Int := 10

/-- The attributes of a form item that form.go reads through the FormItem
interface: label width, field width, field alignment, border padding,
the height of its rect, and the disabled state. -/
structure FormItemModel where
  labelWidth : Int
  fieldWidth : Int
  fieldAlign : Int
  padTop : Int
  padBottom : Int
  padLeft : Int
  padRight : Int
  height : Int
  disabled : Bool
deriving DecidableEq, Repr, Inhabited

/-- The attributes of a button that form.go reads: the display width of its
label (StringWidth of the label) and the hidden flag. -/
structure ButtonModel where
  labelWidth : Int
  hidden : Bool
deriving DecidableEq, Repr, Inhabited

/-- The Form aggregate (form.go lines 52-106 plus the Box fields it uses:
x, y, width, height, border, border padding). -/
structure Form where
  items : List FormItemModel
  itemsColumn : List Nat
  buttons : List ButtonModel
  horizontal : Bool
  buttonsAlign : Int
  buttonsPaddingTop : Int
  buttonsIndent : Int
  lastItem : Nat
  lastButton : Nat
  itemPadding : Int
  focusedElement : Int
  labelColor : Color
  fieldBackgroundColor : Color
  fieldTextColor : Color
  buttonBackgroundColor : Color
  buttonTextColor : Color
  cancelSet : Bool
  align : Int
  columnPadding : Int
  x : Int
  y : Int
  width : Int
  height : Int
  border : Bool
  paddingTop : Int
  paddingBottom : Int
  paddingLeft : Int
  paddingRight : Int
deriving DecidableEq, Repr, Inhabited

/-- NewForm (form.go lines 109-131): border padding 1,1,1,1, left alignment,
columnPadding 1, itemPadding 1, buttonsPaddingTop 2, buttonsIndent 4, colors
from the style configuration (passed as parameters here), width = height = 0.
The remaining fields are Go zero values. -/
def newForm (labelColor fieldBg fieldText buttonBg buttonText : Color) : Form where
  items := []
  itemsColumn := []
  buttons := []
  horizontal := false
  buttonsAlign := AlignLeft
  buttonsPaddingTop := 2
  buttonsIndent := 4
  lastItem := 0
  lastButton := 0
  itemPadding := 1
  focusedElement := 0
  labelColor := labelColor
  fieldBackgroundColor := fieldBg
  fieldTextColor := fieldText
  buttonBackgroundColor := buttonBg
  buttonTextColor := buttonText
  cancelSet := false
  align := AlignLeft
  columnPadding := 1
  x := 0
  y := 0
  width := 0
  height := 0
  border := false
  paddingTop := 1
  paddingBottom := 1
  paddingLeft := 1
  paddingRight := 1

/-- Buttons() (form.go lines 134-142): the buttons that are not hidden,
in storage order. -/
def visibleButtons (f : Form) : List ButtonModel :=
  f.buttons.filter (fun b => !b.hidden)

def numVisibleButtons (f : Form) : Nat :=
  (visibleButtons f).length

/-- AddInputField (form.go lines 228-237): appends the new item to f.items;
itemsColumn is not touched.  The concrete InputField construction lives
outside this core, so the item is a parameter. -/
def addInputField (f : Form) (item : FormItemModel) : Form :=
  { f with items := f.items ++ [item] }

/-- AddFormItemWithColumn (form.go lines 337-342): appends to items and to
itemsColumn, and sets lastButton to the new item count. -/
def addFormItemWithColumn (f : Form) (item : FormItemModel) (column : Nat) : Form :=
  { f with
    items := f.items ++ [item]
    itemsColumn := f.itemsColumn ++ [column]
    lastButton := f.items.length + 1 }

/-- AddFormItem (form.go lines 332-334): AddFormItemWithColumn with column 0. -/
def addFormItem (f : Form) (item : FormItemModel) : Form :=
  addFormItemWithColumn f item 0

/-- AddButton (form.go lines 292-295). -/
def addButton (f : Form) (b : ButtonModel) : Form :=
  { f with buttons := f.buttons ++ [b] }

/-- Clear (form.go lines 307-314): items := nil, buttons := nil when
includeButtons, focusedElement := 0.  itemsColumn is not touched. -/
def clear (f : Form) (includeButtons : Bool) : Form :=
  { f with
    items := []
    buttons := if includeButtons then [] else f.buttons
    focusedElement := 0 }

/-- The loop of ResetFocus (form.go lines 699-705): the index of the first
item whose IsDisable() is false, if any. -/
def firstEnabled : Nat → List FormItemModel → Option Nat
  | _, [] => none
  | i, it :: rest => if it.disabled then firstEnabled (i + 1) rest else some i

/-- ResetFocus (form.go lines 698-708): focusedElement becomes the first
enabled item index when one exists (otherwise it is left unchanged, the loop
body never runs for it); lastItem := 0; lastButton := len(items). -/
def resetFocus (f : Form) : Form :=
  { f with
    focusedElement :=
      match firstEnabled 0 f.items with
      | some i => (i : Int)
      | none => f.focusedElement
    lastItem := 0
    lastButton := f.items.length }

/-- getColoumnsCount (form.go lines 411-419): max of itemsColumn entries
(starting from 0), plus one. -/
def getColoumnsCount (f : Form) : Nat :=
  (f.itemsColumn.foldl (fun m n => if m < n then n else m) 0) + 1

/-- Go indexing f.itemsColumn[i] (in range under the lockstep hypotheses of
the theorems; Go panics out of range, see claim C5). -/
def columnOf (f : Form) (i : Nat) : Nat :=
  f.itemsColumn.getD i 0

/-- The subsequence of items assigned to a given column, in storage order.
The per-column array updates of getMaxWidthItems and getMaxHeightColumn
only ever read and write the entry of the item's own column, so the final
entry for a column is a fold over this subsequence. -/
def colItems (f : Form) (col : Nat) : List FormItemModel :=
  (f.items.enum.filter (fun p => columnOf f p.1 == col)).map Prod.snd

/-- First loop of getMaxWidthItems (form.go lines 450-462), maxLabelWidth
entry of one column: running value updated by each item in the column with
labelWidth+leftPadding > 0, labelWidth+leftPadding > current-1 and center
alignment. -/
def maxLabelWidthCol (f : Form) (col : Nat) : Int :=
  (colItems f col).foldl
    (fun acc it =>
      let lw := it.labelWidth + it.padLeft
      if lw > 0 ∧ acc - 1 < lw ∧ it.fieldAlign = AlignCenter then lw + 1 else acc)
    0

/-- First loop of getMaxWidthItems, maxFieldWidth entry of one column. -/
def maxFieldWidthCol (f : Form) (col : Nat) : Int :=
  (colItems f col).foldl
    (fun acc it =>
      let fw := it.fieldWidth + it.padRight
      if acc < fw then fw else acc)
    0

/-- Second loop of getMaxWidthItems (form.go lines 464-476), maxWidth entry
of one column: each item first raises the entry to labelWidth+fieldWidth
(paddings included) if larger, then a center-aligned item overwrites it with
maxLabelWidth+maxFieldWidth of the column (the first loop has completed, so
those are the final values). -/
def maxWidthCol (f : Form) (col : Nat) : Int :=
  (colItems f col).foldl
    (fun acc it =>
      let lw := it.labelWidth + it.padLeft
      let fw := it.fieldWidth + it.padRight
      let acc1 := if acc < lw + fw then lw + fw else acc
      if it.fieldAlign = AlignCenter then maxLabelWidthCol f col + maxFieldWidthCol f col
      else acc1)
    0

/-- Inner sum of getMaxHeightColumn (form.go lines 426-430) for one column:
maxHeight[column] accumulates height + itemPadding over the column's items. -/
def colHeightSum (f : Form) (col : Nat) : Int :=
  (colItems f col).foldl (fun acc it => acc + (it.height + f.itemPadding)) 0

/-- getMaxHeightColumn (form.go lines 421-441): when there are items, the
maximum of the per-column sums (starting from 0) minus one itemPadding;
otherwise 0. -/
def getMaxHeightColumn (f : Form) : Int :=
  if 0 < f.items.length then
    ((List.range (getColoumnsCount f)).foldl
      (fun h col => if h < colHeightSum f col then colHeightSum f col else h) 0)
      - f.itemPadding
  else 0

/-- GetRect (form.go lines 379-409).  When the stored width is 0 the width
is the maximum over columns of maxWidth (loop lines 385-389), plus left and
right border padding, plus 2 when a border is set.  When the stored height
is 0 the height is getMaxHeightColumn, plus 1+buttonsPaddingTop when a
visible button exists, plus 2 for a border, plus top and bottom padding. -/
def getRect (f : Form) : Int × Int × Int × Int :=
  let maxColumns := getColoumnsCount f
  let width :=
    if f.width = 0 then
      ((List.range maxColumns).foldl
        (fun w col => if w < maxWidthCol f col then maxWidthCol f col else w) 0)
        + f.paddingLeft + f.paddingRight + (if f.border then 2 else 0)
    else f.width
  let height :=
    if f.height = 0 then
      getMaxHeightColumn f
        + (if 0 < numVisibleButtons f then 1 + f.buttonsPaddingTop else 0)
        + (if f.border then 2 else 0)
        + f.paddingTop + f.paddingBottom
    else f.height
  (f.x, f.y, width, height)

/-- The width component of getRect. -/
def getRectWidth (f : Form) : Int :=
  (getRect f).2.2.1

/-- The height component of getRect. -/
def getRectHeight (f : Form) : Int :=
  (getRect f).2.2.2

/-- Vertical scroll offset of Draw (form.go lines 650-657), from the focused
element's rect (fy, fh) and the visible band limits.  If the bottom edge
fy+fh exceeds bottomLimit, the offset is the overflow, reduced to
fy - topLimit when subtracting it would raise the top edge above topLimit;
otherwise 0. -/
def drawOffset (topLimit bottomLimit fy fh : Int) : Int :=
  if fy + fh > bottomLimit then
    let o := fy + fh - bottomLimit
    if fy - o < topLimit then fy - topLimit else o
  else 0

/-- Final row of an element in Draw (form.go lines 662 and 683): the
computed row minus the offset. -/
def finalRow (offset y : Int) : Int :=
  y - offset

/-- Button placement loop of Draw in vertical mode (form.go lines 615-648,
else-branch of the horizontal test): walk the visible buttons left to right;
stop (break) when the remaining space before rightLimit is below 1; clamp a
button's width to the remaining space when it is larger; advance x by the
placed width plus buttonsIndent.  Returns the (x, width) of each placed
button. -/
def placeButtonsVert (rightLimit indent : Int) : Int → List Int → List (Int × Int)
  | _, [] => []
  | x, w :: rest =>
    let space := rightLimit - x
    if space < 1 then []
    else
      let bw := if w > space then space else w
      (x, bw) :: placeButtonsVert rightLimit indent (x + bw + indent) rest

/-- Effective item width in horizontal mode (form.go lines 527-531):
label width plus field width, a flexible field width (0) replaced by
DefaultFormFieldWidth. -/
def horizItemWidth (labelWidth fieldWidth : Int) : Int :=
  labelWidth + (if fieldWidth = 0 then DefaultFormFieldWidth else fieldWidth)

/-- Row-wrap step of Draw in horizontal mode (form.go lines 546-550): when
x + labelWidth + 1 >= rightLimit the position is reset to (startX, y+2),
otherwise kept. -/
def horizAdvance (startX rightLimit x labelWidth y : Int) : Int × Int :=
  if x + labelWidth + 1 ≥ rightLimit then (startX, y + 2) else (x, y)

/-- The argument bundle of a SetFormAttributes call (FormItem interface,
form.go line 30). -/
structure FormAttributes where
  labelWidth : Int
  fieldWidth : Int
  labelColor : Color
  bgColor : Color
  fieldTextColor : Color
  fieldBgColor : Color
deriving DecidableEq, Repr

/-- The SetFormAttributes call Draw makes for every item (form.go lines
556-563): label width and field width as computed by the layout, labelColor
and fieldTextColor and fieldBackgroundColor from the form, and the constant
tcell.ColorBlack as the bgColor argument. -/
def setFormAttributesArgs (f : Form) (labelWidth fieldWidth : Int) : FormAttributes where
  labelWidth := labelWidth
  fieldWidth := fieldWidth
  labelColor := f.labelColor
  bgColor := colorBlack
  fieldTextColor := f.fieldTextColor
  fieldBgColor := f.fieldBackgroundColor

/-- Where Focus hands the focus: nowhere, to an item (storage index), or to
a visible button (position in the visible sequence). -/
inductive Handoff where
  | nothing : Handoff
  | item : Nat → Handoff
  | button : Nat → Handoff
deriving DecidableEq, Repr

/-- The focusedElement value after the entry checks of Focus (form.go lines
711-719): unchanged when there are no items and no visible buttons (early
return), clamped to 0 when out of range, otherwise unchanged. -/
def focusClamp (f : Form) : Int :=
  if f.items.length + numVisibleButtons f = 0 then f.focusedElement
  else if f.focusedElement < 0 ∨ f.focusedElement ≥ (f.items.length + numVisibleButtons f : Int)
    then 0
  else f.focusedElement

/-- The delegation Focus performs (form.go lines 711-719 and 814-825): no
handoff when items plus visible buttons are empty; otherwise, after
clamping, an item index below len(items) delegates to that item, and an
index fe ≥ len(items) delegates to the visible button at display position
len(Buttons()) - 1 - (fe - len(items)). -/
def focusHandoff (f : Form) : Handoff :=
  if f.items.length + numVisibleButtons f = 0 then .nothing
  else
    let fe := focusClamp f
    if fe < (f.items.length : Int) then .item fe.toNat
    else .button (numVisibleButtons f - 1 - (fe.toNat - f.items.length))

/-- makeRange (form.go lines 755-769): ascending start..end when
start < end, descending start..end otherwise.  The Go code builds it with
int arithmetic; all calls analysed by the claims stay in the naturals. -/
def makeRange (start e : Nat) : List Nat :=
  if start < e then (List.range (e - start + 1)).map (fun i => start + i)
  else (List.range (start - e + 1)).map (fun i => start - i)

/-- Ascending run a, a+1, ..., a+n-1 (helper for reasoning about makeRange). -/
def ascList : Nat → Nat → List Nat
  | _, 0 => []
  | a, n + 1 => a :: ascList (a + 1) n

/-- Descending run a, a-1, ..., a-n+1 (helper for reasoning about makeRange). -/
def descList : Nat → Nat → List Nat
  | _, 0 => []
  | a, n + 1 => a :: descList (a - 1) n

/-- Rotation scan of nextStep (form.go lines 723-728): find the first i ≥ 1
with indexes[i-1] < indexes[i] and focused < indexes[i], or
indexes[i-1] > indexes[i] and focused > indexes[i], and rotate the sequence
to start at i.  `prev` is indexes[i-1], `seen` the part strictly before it. -/
def rotGo (focused : Nat) : Nat → List Nat → List Nat → List Nat
  | prev, seen, [] => seen ++ [prev]
  | prev, seen, b :: rest =>
    if (prev < b ∧ focused < b) ∨ (b < prev ∧ b < focused) then
      (b :: rest) ++ (seen ++ [prev])
    else rotGo focused b (seen ++ [prev]) rest

/-- The rotated candidate sequence of nextStep. -/
def rotateSeq (focused : Nat) : List Nat → List Nat
  | [] => []
  | a :: rest => rotGo focused a [] rest

/-- Candidate walk of nextStep (form.go lines 730-752) under the claims'
premise that no element declines focus: skip candidates at or beyond
numItems+numButtons; a candidate with the same identity as the current
element (identities are list positions, so the class checks of lines
736-741 reduce to equality with `current`) is assigned to focusedElement
but skipped; the first remaining candidate is delegated to and, accepting,
ends the walk.  `acc` is the focusedElement value so far. -/
def nextStepWalk (numItems numButtons current : Nat) : Nat → List Nat → Nat
  | acc, [] => acc
  | acc, c :: rest =>
    if numItems + numButtons ≤ c then nextStepWalk numItems numButtons current acc rest
    else if (c < numItems ∧ current < numItems ∧ c = current)
        ∨ (numItems ≤ c ∧ numItems ≤ current ∧ c = current) then
      nextStepWalk numItems numButtons current c rest
    else c

/-- The four directional keys of the navigation claims. -/
inductive NavKey where
  | tab : NavKey
  | backtab : NavKey
  | up : NavKey
  | down : NavKey
deriving DecidableEq, Repr

/-- Candidate sequences of itemHandler (form.go lines 772-792, used while an
item holds focus) and buttonHandler (lines 794-812, used while a button
holds focus). -/
def candidateList (numItems numButtons : Nat) (onItem : Prop) [Decidable onItem] : NavKey → List Nat
  | .tab => makeRange 0 numItems
  | .backtab => makeRange numItems 0
  | .up =>
    if onItem then makeRange (numItems - 1) 0
    else makeRange numItems (numItems + numButtons - 1)
  | .down =>
    if onItem then makeRange 0 (numItems - 1)
    else makeRange (numItems + numButtons - 1) numItems

/-- One key-driven focus transition when no element declines focus: rotate
the key's candidate sequence at the current index and walk it. -/
def navStep (numItems numButtons : Nat) (k : NavKey) (current : Nat) : Nat :=
  nextStepWalk numItems numButtons current current
    (rotateSeq current (candidateList numItems numButtons (current < numItems) k))

/-- Successor modulo m as the navigation realises it. -/
def succMod (m j : Nat) : Nat :=
  if j + 1 = m then 0 else j + 1

/-- Predecessor modulo m as the navigation realises it. -/
def predMod (m j : Nat) : Nat :=
  if j = 0 then m - 1 else j - 1

/-! ## Claim C4: viewport offset -/

/-- C4: during a draw pass, when the focused element's bottom edge fy+fh
exceeds the visible bottom boundary, every element's final row is its
computed row minus an offset equal to the overflow, except that when the
focused top minus that offset would rise above the top boundary the offset
is reduced to fy - topLimit; when the bottom edge does not exceed the
boundary the offset is 0 and rows are unchanged. -/
theorem viewport_offset_spec (topLimit bottomLimit fy fh y : Int) :
    (fy + fh > bottomLimit → topLimit ≤ fy - (fy + fh - bottomLimit) →
      drawOffset topLimit bottomLimit fy fh = fy + fh - bottomLimit ∧
      finalRow (drawOffset topLimit bottomLimit fy fh) y = y - (fy + fh - bottomLimit)) ∧
    (fy + fh > bottomLimit → fy - (fy + fh - bottomLimit) < topLimit →
      drawOffset topLimit bottomLimit fy fh = fy - topLimit ∧
      finalRow (drawOffset topLimit bottomLimit fy fh) y = y - (fy - topLimit)) ∧
    (fy + fh ≤ bottomLimit →
      drawOffset topLimit bottomLimit fy fh = 0 ∧
      finalRow (drawOffset topLimit bottomLimit fy fh) y = y) := by
  refine ⟨fun h1 h2 => ?_, fun h1 h2 => ?_, fun h1 => ?_⟩ <;>
    simp only [drawOffset, finalRow] <;> split_ifs <;> constructor <;> omega

/-- Witness for C4 at topLimit 0, bottomLimit 10, focused rect y 5 height 8,
a row 3: the offset is the overflow 3 and the final row is 0. -/
theorem viewport_offset_spec_witness :
    drawOffset 0 10 5 8 = 5 + 8 - 10 ∧
    finalRow (drawOffset 0 10 5 8) 3 = 3 - (5 + 8 - 10) :=
  (viewport_offset_spec 0 10 5 8 3).1 (by decide) (by decide)

/-! ## Claim C9: attribute push -/

/-- Concrete form whose five configured colors are all the color 5. -/
def colorForm : Form :=
  newForm 5 5 5 5 5

/-- C9 counterexample: the bgColor argument of the SetFormAttributes call is
not any of the form's configured colors — for a form configured entirely
with color 5 the pushed bgColor is the constant black. -/
theorem attribute_push_counterexample :
    (setFormAttributesArgs colorForm 7 9).bgColor ≠ colorForm.labelColor ∧
    (setFormAttributesArgs colorForm 7 9).bgColor ≠ colorForm.fieldBackgroundColor ∧
    (setFormAttributesArgs colorForm 7 9).bgColor ≠ colorForm.fieldTextColor ∧
    (setFormAttributesArgs colorForm 7 9).bgColor ≠ colorForm.buttonBackgroundColor ∧
    (setFormAttributesArgs colorForm 7 9).bgColor ≠ colorForm.buttonTextColor := by
  decide

/-- C9 (amended): each layout pass hands every field one attribute bundle
carrying the computed label width and field width, the form's label color,
field text color and field background color — but the fourth argument (the
bgColor slot) is the constant tcell.ColorBlack, not a color from the form's
configuration. -/
theorem attribute_push_amended (f : Form) (lw fw : Int) :
    (setFormAttributesArgs f lw fw).labelWidth = lw ∧
    (setFormAttributesArgs f lw fw).fieldWidth = fw ∧
    (setFormAttributesArgs f lw fw).labelColor = f.labelColor ∧
    (setFormAttributesArgs f lw fw).fieldTextColor = f.fieldTextColor ∧
    (setFormAttributesArgs f lw fw).fieldBgColor = f.fieldBackgroundColor ∧
    (setFormAttributesArgs f lw fw).bgColor = colorBlack :=
  ⟨rfl, rfl, rfl, rfl, rfl, rfl⟩

/-! ## Claim C10: Focus on an empty form -/

/-- C10: when the form has no items and no visible buttons, Focus returns
before the clamp: no element is delegated to and the stored focus index
keeps its previous value. -/
theorem focus_empty_noop (f : Form) (h : f.items.length + numVisibleButtons f = 0) :
    focusHandoff f = Handoff.nothing ∧ focusClamp f = f.focusedElement := by
  constructor
  · simp only [focusHandoff, if_pos h]
  · simp only [focusClamp, if_pos h]

/-- Concrete form with no items, one hidden button, and a stale focus index
5 (out of range). -/
def emptyFocusForm : Form :=
  { addButton (newForm 1 2 3 4 5) { labelWidth := 4, hidden := true } with
      focusedElement := 5 }

/-- Witness for C10: on the empty form the handoff is nothing and the focus
index stays at the out-of-range value 5 (it is not clamped to 0). -/
theorem focus_empty_noop_witness :
    focusHandoff emptyFocusForm = Handoff.nothing ∧ focusClamp emptyFocusForm = 5 := by
  have h := focus_empty_noop emptyFocusForm (by decide)
  exact ⟨h.1, h.2⟩

/-! ## Claim C2: reversed button index mapping -/

/-- C2: whenever the focus index lies in [len(items), len(items)+visible),
Focus delegates to the visible button at display position
visible - 1 - (focusedElement - len(items)): the index-to-button mapping is
the mirror of the visual left-to-right order. -/
theorem reversed_button_mapping (f : Form)
    (h1 : (f.items.length : Int) ≤ f.focusedElement)
    (h2 : f.focusedElement < ((f.items.length + numVisibleButtons f : Nat) : Int)) :
    focusHandoff f =
      Handoff.button (numVisibleButtons f - 1 - (f.focusedElement.toNat - f.items.length)) := by
  have htot : ¬ (f.items.length + numVisibleButtons f = 0) := by
    intro h0
    rw [h0] at h2
    omega
  have hclamp : focusClamp f = f.focusedElement := by
    simp only [focusClamp, if_neg htot]
    rw [if_neg]
    push_neg
    exact ⟨by omega, by omega⟩
  simp only [focusHandoff, if_neg htot, hclamp]
  rw [if_neg (by omega)]

/-- Concrete form with one item, two visible buttons, and focus index 2
(the first button index). -/
def buttonFocusForm : Form :=
  { addButton
      (addButton (addFormItem (newForm 1 2 3 4 5) default)
        { labelWidth := 2, hidden := false })
      { labelWidth := 3, hidden := false } with
    focusedElement := 2 }

/-- Witness for C2: with 1 item and 2 visible buttons, focus index 2 (the
first button index, k = 1) delegates to the visible button at display
position 2 - 1 - 1 = 0, the mirror of its index order. -/
theorem reversed_button_mapping_witness :
    focusHandoff buttonFocusForm = Handoff.button 0 := by
  rw [reversed_button_mapping buttonFocusForm (by decide) (by decide)]
  decide

/-! ## Claim C6: ResetFocus -/

/-- The ResetFocus loop finds the first index whose item is enabled when the
items before it are all disabled. -/
lemma firstEnabled_eq_some :
    ∀ (l : List FormItemModel) (i : Nat) (k : Nat), i < l.length →
      (l.getD i default).disabled = false →
      (∀ j, j < i → (l.getD j default).disabled = true) →
      firstEnabled k l = some (k + i)
  | [], i, k, hi, _, _ => absurd hi (by simp)
  | it :: rest, 0, k, _, hen, _ => by
    simp only [List.getD_cons_zero] at hen
    simp [firstEnabled, hen]
  | it :: rest, i + 1, k, hi, hen, hdis => by
    have h0 : it.disabled = true := by
      have := hdis 0 (Nat.succ_pos i)
      simpa using this
    have hr := firstEnabled_eq_some rest i (k + 1)
      (by simpa using Nat.lt_of_succ_lt_succ hi)
      (by simpa using hen)
      (fun j hj => by
        have := hdis (j + 1) (Nat.succ_lt_succ hj)
        simpa using this)
    simp only [firstEnabled, h0, if_pos]
    rw [hr]
    congr 1
    omega

/-- Concrete form with no items and a stale focus index 5. -/
def emptyResetForm : Form :=
  { newForm 1 2 3 4 5 with focusedElement := 5 }

/-- C6 counterexample: with an empty field list ResetFocus leaves the focus
index at its previous value 5; it is not set to 0 as the claim states. -/
theorem reset_focus_counterexample :
    emptyResetForm.items = [] ∧ (resetFocus emptyResetForm).focusedElement = 5 := by
  decide

/-- C6 (amended): ResetFocus sets the focus index to the index of the first
field that is not disabled (skipping disabled ones); when the field list is
empty — or every field is disabled — the focus index is left unchanged
(the loop body never runs); it always resets lastItem to 0 and lastButton
to the field count. -/
theorem reset_focus_amended (f : Form) :
    ((resetFocus f).lastItem = 0 ∧ (resetFocus f).lastButton = f.items.length) ∧
    (∀ i, i < f.items.length → (f.items.getD i default).disabled = false →
      (∀ j, j < i → (f.items.getD j default).disabled = true) →
      (resetFocus f).focusedElement = (i : Int)) ∧
    ((∀ j, j < f.items.length → (f.items.getD j default).disabled = true) →
      (resetFocus f).focusedElement = f.focusedElement) := by
  refine ⟨⟨rfl, rfl⟩, fun i hi hen hdis => ?_, fun hall => ?_⟩
  · have h := firstEnabled_eq_some f.items i 0 hi hen hdis
    simp only [resetFocus, h]
    norm_num
  · have key : ∀ (l : List FormItemModel) (k i : Nat),
        (∀ j, j < l.length → (l.getD j default).disabled = true) →
        firstEnabled k l = some i → False := by
      intro l
      induction l with
      | nil => intro k i _ h; simp [firstEnabled] at h
      | cons it rest ih =>
        intro k i hall2 h
        have h0 : it.disabled = true := by
          have := hall2 0 (by simp)
          simpa using this
        rw [firstEnabled, if_pos h0] at h
        exact ih (k + 1) i
          (fun j hj => by
            have := hall2 (j + 1) (by simpa using Nat.succ_lt_succ hj)
            simpa using this) h
    have hnone : firstEnabled 0 f.items = none := by
      cases hfe : firstEnabled 0 f.items with
      | none => rfl
      | some i => exact (key f.items 0 i hall hfe).elim
    simp only [resetFocus, hnone]

/-- Concrete form with a disabled first field and an enabled second field. -/
def skipResetForm : Form :=
  addFormItem (addFormItem (newForm 1 2 3 4 5)
    { labelWidth := 1, fieldWidth := 1, fieldAlign := 0, padTop := 0, padBottom := 0,
      padLeft := 0, padRight := 0, height := 1, disabled := true })
    { labelWidth := 1, fieldWidth := 1, fieldAlign := 0, padTop := 0, padBottom := 0,
      padLeft := 0, padRight := 0, height := 1, disabled := false }

/-- Witness for C6 (amended): ResetFocus skips the disabled field 0 and sets
the focus index to field 1, lastItem to 0 and lastButton to 2. -/
theorem reset_focus_amended_witness :
    ((resetFocus skipResetForm).lastItem = 0 ∧
      (resetFocus skipResetForm).lastButton = skipResetForm.items.length) ∧
    (resetFocus skipResetForm).focusedElement = (1 : Int) := by
  have h := reset_focus_amended skipResetForm
  refine ⟨h.1, h.2.1 1 (by decide) (by decide) ?_⟩
  intro j hj
  have hj0 : j = 0 := by omega
  subst hj0
  decide

/-! ## Claim C7: vertical-mode button placement -/

/-- C7 counterexample: at rightLimit 10 and x 8 a button of width 6 does not
fit in the remaining space 2, yet it is placed — with its width clamped to
2 — rather than placement stopping before it. -/
theorem button_place_counterexample :
    (6 : Int) > 10 - 8 ∧ placeButtonsVert 10 4 8 [6, 3] = [(8, 2)] := by
  decide

/-- C7 (amended): in vertical mode button placement stops exactly when the
remaining space before the right boundary drops below one cell (then no
further button of the pass is placed); a button that reaches its turn with
at least one cell of space is always placed, its width clamped to the
remaining space when it does not fully fit. -/
theorem button_place_amended (rightLimit indent x w : Int) (rest : List Int) :
    (rightLimit - x < 1 → placeButtonsVert rightLimit indent x (w :: rest) = []) ∧
    (1 ≤ rightLimit - x →
      placeButtonsVert rightLimit indent x (w :: rest)
        = (x, min w (rightLimit - x))
            :: placeButtonsVert rightLimit indent (x + min w (rightLimit - x) + indent) rest) := by
  constructor
  · intro h
    simp only [placeButtonsVert, if_pos h]
  · intro h
    have hmin : (if w > rightLimit - x then rightLimit - x else w) = min w (rightLimit - x) := by
      rcases le_or_lt w (rightLimit - x) with h1 | h1
      · rw [if_neg (by omega), min_eq_left h1]
      · rw [if_pos h1, min_eq_right (le_of_lt h1)]
    simp only [placeButtonsVert]
    rw [if_neg (show ¬ rightLimit - x < 1 by omega), hmin]

/-- Witness for C7 (amended): at rightLimit 10, x 8, the width-6 button is
placed with width clamped to min 6 2 = 2 and placement then stops. -/
theorem button_place_amended_witness :
    placeButtonsVert 10 4 8 [6, 3]
      = (8, min 6 (10 - 8)) :: placeButtonsVert 10 4 (8 + min 6 (10 - 8) + 4) [3] :=
  (button_place_amended 10 4 8 6 [3]).2 (by decide)

/-! ## Claim C8: horizontal-mode field wrap -/

/-- C8 counterexample: with startX 0, rightLimit 5, x 0, label width 2 and a
flexible field (width 0, so the item width is 2 + DefaultFormFieldWidth =
12), the item's end exceeds the right boundary, yet the row is not wrapped:
the wrap test only checks x + labelWidth + 1 = 3 < 5, so the position stays
(0, 0) instead of wrapping to (0, 2). -/
theorem horizontal_wrap_counterexample :
    (0 : Int) + horizItemWidth 2 0 > 5 ∧ horizAdvance 0 5 0 2 0 = (0, 0) := by
  decide

/-- C8 (amended): in horizontal mode a field wraps to a new row — x reset to
the original left start and y advanced by two rows — exactly when
x + labelWidth + 1 reaches the right boundary; the field's full width
(label plus field, flexible fields using the configured default) plays no
part in the wrap decision (an overlong field is later clamped, not
wrapped). -/
theorem horizontal_wrap_amended (startX rightLimit x labelWidth y : Int) :
    (x + labelWidth + 1 ≥ rightLimit →
      horizAdvance startX rightLimit x labelWidth y = (startX, y + 2)) ∧
    (x + labelWidth + 1 < rightLimit →
      horizAdvance startX rightLimit x labelWidth y = (x, y)) := by
  constructor
  · intro h
    simp only [horizAdvance, if_pos h]
  · intro h
    simp only [horizAdvance, if_neg (by omega : ¬ x + labelWidth + 1 ≥ rightLimit)]

/-- Witness for C8 (amended): at startX 0, rightLimit 5, x 3, label width 1,
row 0 the wrap triggers (3 + 1 + 1 ≥ 5) and the position becomes (0, 2). -/
theorem horizontal_wrap_amended_witness :
    horizAdvance 0 5 3 1 0 = (0, 2) :=
  (horizontal_wrap_amended 0 5 3 1 0).1 (by decide)

/-! ## Claim C5: column-assignment lockstep -/

/-- Base form for the lockstep evidence. -/
def c5Base : Form :=
  newForm 1 2 3 4 5

/-- C5: the code violates the lockstep invariant the claim states.
AddInputField appends to the field sequence without appending a column
entry, and Clear empties the field sequence while keeping the column
entries.  The measurement and placement passes index the column sequence at
every field position (form.go lines 427 and 454), so a field without a
column entry makes them read out of range — a Go panic — instead of being
treated as column 0. -/
theorem column_lockstep_violation :
    ((addInputField c5Base default).items.length = 1 ∧
      (addInputField c5Base default).itemsColumn.length = 0) ∧
    ((clear (addFormItemWithColumn c5Base default 2) false).items.length = 0 ∧
      (clear (addFormItemWithColumn c5Base default 2) false).itemsColumn.length = 1) := by
  decide

/-! ## Claim C3: auto-sizing -/

/-- Go's running maximum update step is the lattice max. -/
lemma foldl_runningMax_eq (l : List Nat) (g : Nat → Int) :
    ∀ w0 : Int, l.foldl (fun w col => if w < g col then g col else w) w0
      = (l.map g).foldl max w0 := by
  induction l with
  | nil => intro w0; rfl
  | cons c rest ih =>
    intro w0
    rw [List.foldl_cons, List.map_cons, List.foldl_cons, ih]
    congr 1
    rcases le_or_lt (g c) w0 with h | h
    · rw [if_neg (by omega), max_eq_left h]
    · rw [if_pos h, max_eq_right (le_of_lt h)]

/-- Concrete form with two columns of max total widths 5 and 7 (stored
width 0, border off, horizontal border padding 1 + 1). -/
def twoColForm : Form :=
  addFormItemWithColumn
    (addFormItemWithColumn (newForm 1 2 3 4 5)
      { labelWidth := 2, fieldWidth := 3, fieldAlign := 0, padTop := 0, padBottom := 0,
        padLeft := 0, padRight := 0, height := 1, disabled := false } 0)
    { labelWidth := 3, fieldWidth := 4, fieldAlign := 0, padTop := 0, padBottom := 0,
      padLeft := 0, padRight := 0, height := 1, disabled := false } 1

/-- C3 counterexample: with stored width 0, two columns of max total widths
5 and 7 and padding 1 + 1, GetRect returns width 7 + 2 = 9 — the maximum
column width plus padding — not the sum 5 + 7 + 2 = 14 the claim states. -/
theorem auto_size_counterexample :
    twoColForm.width = 0 ∧
    maxWidthCol twoColForm 0 = 5 ∧
    maxWidthCol twoColForm 1 = 7 ∧
    getRectWidth twoColForm = 9 ∧
    getRectWidth twoColForm
      ≠ maxWidthCol twoColForm 0 + maxWidthCol twoColForm 1
          + twoColForm.paddingLeft + twoColForm.paddingRight := by
  decide

/-- C3 (amended): when the stored width is 0 the effective width returned by
GetRect is the MAXIMUM over columns of the column max-total-widths (not
their sum), plus left and right padding, plus 2 when a border is present;
when the stored height is 0 the effective height is the maximum column
height, plus 1 + buttonsPaddingTop when at least one visible button exists,
plus 2 for a border, plus top and bottom padding. -/
theorem auto_size_amended (f : Form) :
    (f.width = 0 →
      getRectWidth f =
        ((List.range (getColoumnsCount f)).map (maxWidthCol f)).foldl max 0
          + f.paddingLeft + f.paddingRight + (if f.border then 2 else 0)) ∧
    (f.height = 0 →
      getRectHeight f =
        getMaxHeightColumn f
          + (if 0 < numVisibleButtons f then 1 + f.buttonsPaddingTop else 0)
          + (if f.border then 2 else 0) + f.paddingTop + f.paddingBottom) := by
  constructor
  · intro h
    simp only [getRectWidth, getRect, if_pos h]
    rw [foldl_runningMax_eq]
  · intro h
    simp only [getRectHeight, getRect, if_pos h]

/-- Witness for C3 (amended): on the two-column form the auto-computed width
is the maximum of the column widths 5 and 7 plus the padding 1 + 1, and the
auto-computed height is the column height maximum 1 plus the vertical
padding 1 + 1. -/
theorem auto_size_amended_witness :
    getRectWidth twoColForm
      = ((List.range (getColoumnsCount twoColForm)).map (maxWidthCol twoColForm)).foldl max 0
          + twoColForm.paddingLeft + twoColForm.paddingRight
          + (if twoColForm.border then 2 else 0) ∧
    getRectHeight twoColForm
      = getMaxHeightColumn twoColForm
          + (if 0 < numVisibleButtons twoColForm then 1 + twoColForm.buttonsPaddingTop else 0)
          + (if twoColForm.border then 2 else 0)
          + twoColForm.paddingTop + twoColForm.paddingBottom :=
  ⟨(auto_size_amended twoColForm).1 rfl, (auto_size_amended twoColForm).2 rfl⟩

/-! ## Claim C1: navigation cycles

The lemmas characterise the rotation of nextStep on the ascending and
descending runs produced by makeRange, then each key's one-step transition,
and finally the iteration behaviour. -/

lemma range_map_add (a n : Nat) : (List.range n).map (fun i => a + i) = ascList a n := by
  induction n generalizing a with
  | zero => rfl
  | succ n ih =>
    rw [List.range_succ_eq_map, List.map_cons, List.map_map, ascList]
    have he : ((fun i => a + i) ∘ Nat.succ) = fun i => (a + 1) + i := by
      funext i
      simp only [Function.comp_apply, Nat.succ_eq_add_one]
      omega
    rw [he, ih]
    norm_num

lemma range_map_sub (a n : Nat) : (List.range n).map (fun i => a - i) = descList a n := by
  induction n generalizing a with
  | zero => rfl
  | succ n ih =>
    rw [List.range_succ_eq_map, List.map_cons, List.map_map, descList]
    have he : ((fun i => a - i) ∘ Nat.succ) = fun i => (a - 1) - i := by
      funext i
      simp only [Function.comp_apply, Nat.succ_eq_add_one]
      omega
    rw [he, ih]
    norm_num

lemma makeRange_asc (a b : Nat) (h : a ≤ b) : makeRange a b = ascList a (b - a + 1) := by
  rcases Nat.eq_or_lt_of_le h with he | hlt
  · subst he
    simp only [makeRange, if_neg (lt_irrefl a), range_map_sub, Nat.sub_self]
    rfl
  · simp only [makeRange, if_pos hlt, range_map_add]

lemma makeRange_desc (a b : Nat) (h : b ≤ a) : makeRange a b = descList a (a - b + 1) := by
  simp only [makeRange, if_neg (by omega : ¬ a < b), range_map_sub]

lemma rotGo_asc (j : Nat) :
    ∀ (m prev : Nat) (seen : List Nat), prev ≤ j →
      rotGo j prev seen (ascList (prev + 1) m) =
        if j < prev + m then
          ascList (j + 1) (prev + m - j) ++ seen ++ ascList prev (j + 1 - prev)
        else seen ++ ascList prev (m + 1) := by
  intro m
  induction m with
  | zero =>
    intro prev seen h
    rw [ascList, rotGo, if_neg (by omega)]
    rfl
  | succ m ih =>
    intro prev seen h
    rw [ascList, rotGo]
    by_cases hj : j = prev
    · subst hj
      rw [if_pos (Or.inl ⟨by omega, by omega⟩), if_pos (by omega)]
      have h1 : j + 1 - j = 1 := by omega
      have h2 : j + (m + 1) - j = m + 1 := by omega
      rw [h1, h2]
      simp [ascList, List.append_assoc]
    · have hlt : prev < j := by omega
      rw [if_neg (by
        rintro (⟨_, hc⟩ | ⟨hc, _⟩)
        · omega
        · omega)]
      rw [ih (prev + 1) (seen ++ [prev]) (by omega)]
      by_cases hcond : j < prev + 1 + m
      · rw [if_pos hcond, if_pos (by omega)]
        have h1 : prev + 1 + m - j = prev + (m + 1) - j := by omega
        have h2 : j + 1 - prev = (j - prev - 1) + 1 + 1 := by omega
        have h3 : j + 1 - (prev + 1) = (j - prev - 1) + 1 := by omega
        rw [h1, h2, h3]
        simp [ascList, List.append_assoc]
      · rw [if_neg hcond, if_neg (by omega)]
        simp [ascList, List.append_assoc]

lemma rotGo_desc (j : Nat) :
    ∀ (m prev : Nat) (seen : List Nat), m ≤ prev →
      rotGo j prev seen (descList (prev - 1) m) =
        if prev < j + m then
          descList (min j prev - 1) (m - (prev - min j prev)) ++ seen
            ++ descList prev (prev - min j prev + 1)
        else seen ++ descList prev (m + 1) := by
  intro m
  induction m with
  | zero =>
    intro prev seen h
    rw [descList, rotGo]
    by_cases hc : prev < j
    · rw [if_pos (by omega), (by omega : min j prev = prev)]
      simp [descList]
    · rw [if_neg (by omega)]
      simp [descList]
  | succ m ih =>
    intro prev seen h
    rw [descList, rotGo]
    by_cases hj : prev ≤ j
    · rw [if_pos (Or.inr ⟨by omega, by omega⟩), if_pos (by omega),
        (by omega : min j prev = prev), (by omega : m + 1 - (prev - prev) = m + 1),
        (by omega : prev - prev + 1 = 1)]
      simp [descList, List.append_assoc]
    · have hj2 : j < prev := by omega
      rw [if_neg (by rintro (⟨hc, _⟩ | ⟨_, hc⟩) <;> omega)]
      rw [ih (prev - 1) (seen ++ [prev]) (by omega)]
      rw [(by omega : min j (prev - 1) = j)]
      by_cases hcond : prev - 1 < j + m
      · rw [if_pos hcond, if_pos (by omega), (by omega : min j prev = j)]
        rw [(by omega : m - (prev - 1 - j) = m + 1 - (prev - j)),
          (by omega : prev - j + 1 = (prev - 1 - j + 1) + 1)]
        simp [descList, List.append_assoc]
      · rw [if_neg hcond, if_neg (by omega)]
        simp [descList, List.append_assoc]

lemma rotateSeq_asc (j a n : Nat) (h : a ≤ j) :
    rotateSeq j (ascList a (n + 1)) =
      if j < a + n then ascList (j + 1) (a + n - j) ++ ascList a (j + 1 - a)
      else ascList a (n + 1) := by
  rw [ascList]
  simp only [rotateSeq]
  rw [rotGo_asc j n a [] h]
  split_ifs <;> simp [ascList]

lemma rotateSeq_desc (j a n : Nat) (h : n ≤ a) :
    rotateSeq j (descList a (n + 1)) =
      if a < j + n then
        descList (min j a - 1) (n - (a - min j a)) ++ descList a (a - min j a + 1)
      else descList a (n + 1) := by
  rw [descList]
  simp only [rotateSeq]
  rw [rotGo_desc j n a [] h]
  split_ifs <;> simp [descList]

lemma nextStepWalk_pick (nI nB cur acc c : Nat) (rest : List Nat)
    (h1 : c < nI + nB) (h2 : c ≠ cur) :
    nextStepWalk nI nB cur acc (c :: rest) = c := by
  simp only [nextStepWalk]
  rw [if_neg (by omega), if_neg (by rintro (⟨_, _, e⟩ | ⟨_, _, e⟩) <;> exact h2 e)]

lemma nextStepWalk_oob (nI nB cur acc c : Nat) (rest : List Nat) (h : nI + nB ≤ c) :
    nextStepWalk nI nB cur acc (c :: rest) = nextStepWalk nI nB cur acc rest := by
  simp only [nextStepWalk]
  rw [if_pos h]

lemma nextStepWalk_same (nI nB cur acc : Nat) (rest : List Nat) (h1 : cur < nI + nB) :
    nextStepWalk nI nB cur acc (cur :: rest) = nextStepWalk nI nB cur cur rest := by
  simp only [nextStepWalk]
  rw [if_neg (by omega), if_pos (by
    rcases Nat.lt_or_ge cur nI with h2 | h2
    · exact Or.inl ⟨h2, h2, trivial⟩
    · exact Or.inr ⟨h2, h2, trivial⟩)]

lemma navStep_tab (nI nB cur : Nat) (h : cur < nI + min nB 1) :
    navStep nI nB NavKey.tab cur = succMod (nI + min nB 1) cur := by
  simp only [navStep, candidateList]
  rw [makeRange_asc 0 nI (Nat.zero_le nI), (by omega : nI - 0 + 1 = nI + 1),
    rotateSeq_asc cur 0 nI (Nat.zero_le cur)]
  rcases Nat.lt_or_ge cur nI with hlt | hge
  · rw [if_pos (by omega), (by omega : 0 + nI - cur = (nI - cur - 1) + 1), ascList,
      List.cons_append]
    rcases Nat.lt_or_ge (cur + 1) (nI + nB) with hT | hT
    · rw [nextStepWalk_pick nI nB cur cur (cur + 1) _ hT (by omega)]
      unfold succMod
      rw [if_neg (by omega)]
    · have hB : nB = 0 := by omega
      have hN : cur + 1 = nI := by omega
      rw [nextStepWalk_oob nI nB cur cur (cur + 1) _ (by omega),
        (by omega : nI - cur - 1 = 0)]
      simp only [ascList, List.nil_append]
      rcases Nat.eq_zero_or_pos cur with hc0 | hc0
      · subst hc0
        rw [nextStepWalk_same nI nB 0 0 _ (by omega)]
        simp only [ascList, nextStepWalk]
        unfold succMod
        rw [if_pos (by omega)]
      · rw [nextStepWalk_pick nI nB cur cur 0 _ (by omega) (by omega)]
        unfold succMod
        rw [if_pos (by omega)]
  · have hcur : cur = nI := by omega
    have hB : 1 ≤ nB := by omega
    subst hcur
    rw [if_neg (by omega), ascList]
    rcases Nat.eq_zero_or_pos cur with h0 | h0
    · subst h0
      rw [nextStepWalk_same 0 nB 0 0 _ (by omega)]
      simp only [ascList, nextStepWalk]
      unfold succMod
      rw [(by omega : (0 : Nat) + min nB 1 = 1), if_pos (by omega)]
    · rw [nextStepWalk_pick cur nB cur cur 0 _ (by omega) (by omega)]
      unfold succMod
      rw [if_pos (by omega)]

lemma navStep_backtab (nI nB cur : Nat) (h : cur < nI + min nB 1) :
    navStep nI nB NavKey.backtab cur = predMod (nI + min nB 1) cur := by
  simp only [navStep, candidateList]
  rw [makeRange_desc nI 0 (Nat.zero_le nI),
    rotateSeq_desc cur nI (nI - 0) (by omega)]
  rcases Nat.eq_zero_or_pos cur with hc0 | hc0
  · subst hc0
    rw [if_neg (by omega)]
    rcases Nat.eq_zero_or_pos nI with h0 | h0
    · subst h0
      rw [(by omega : (0 : Nat) - 0 + 1 = 0 + 1), descList,
        nextStepWalk_same 0 nB 0 0 _ (by omega)]
      simp only [descList, nextStepWalk]
      unfold predMod
      rw [if_pos rfl]
      omega
    · rw [(by omega : nI - 0 + 1 = nI + 1), descList]
      rcases Nat.eq_zero_or_pos nB with hb0 | hb0
      · subst hb0
        rw [nextStepWalk_oob nI 0 0 0 nI _ (by omega)]
        obtain ⟨k, rfl⟩ : ∃ k, nI = k + 1 := ⟨nI - 1, by omega⟩
        rw [(by omega : k + 1 - 1 = k)]
        rcases Nat.eq_zero_or_pos k with hk0 | hk0
        · subst hk0
          rw [descList, nextStepWalk_same (0 + 1) 0 0 0 _ (by omega)]
          simp only [descList, nextStepWalk]
          unfold predMod
          rw [if_pos rfl]
          omega
        · rw [(by omega : k = (k - 1) + 1), descList,
            nextStepWalk_pick (k - 1 + 1 + 1) 0 0 0 (k - 1 + 1) _ (by omega) (by omega)]
          unfold predMod
          rw [if_pos rfl]
          omega
      · rw [nextStepWalk_pick nI nB 0 0 nI _ (by omega) (by omega)]
        unfold predMod
        rw [if_pos rfl]
        omega
  · rw [if_pos (by omega), (by omega : min cur nI = cur),
      (by omega : nI - 0 - (nI - cur) = (cur - 1) + 1), descList, List.cons_append,
      nextStepWalk_pick nI nB cur cur (cur - 1) _ (by omega) (by omega)]
    unfold predMod
    rw [if_neg (by omega)]

lemma navStep_down_item (nI nB cur : Nat) (h : cur < nI) :
    navStep nI nB NavKey.down cur = succMod nI cur := by
  simp only [navStep, candidateList]
  rw [if_pos h, makeRange_asc 0 (nI - 1) (Nat.zero_le _),
    rotateSeq_asc cur 0 (nI - 1 - 0) (Nat.zero_le cur)]
  rcases Nat.lt_or_ge cur (nI - 1) with hlt | hge
  · rw [if_pos (by omega), (by omega : 0 + (nI - 1 - 0) - cur = (nI - cur - 2) + 1),
      ascList, List.cons_append,
      nextStepWalk_pick nI nB cur cur (cur + 1) _ (by omega) (by omega)]
    unfold succMod
    rw [if_neg (by omega)]
  · rw [if_neg (by omega), (by omega : nI - 1 - 0 + 1 = (nI - 1) + 1), ascList]
    rcases Nat.eq_zero_or_pos cur with hc0 | hc0
    · subst hc0
      rw [nextStepWalk_same nI nB 0 0 _ (by omega), (by omega : nI - 1 = 0)]
      simp only [ascList, nextStepWalk]
      unfold succMod
      rw [if_pos (by omega)]
    · rw [nextStepWalk_pick nI nB cur cur 0 _ (by omega) (by omega)]
      unfold succMod
      rw [if_pos (by omega)]

lemma navStep_up_item (nI nB cur : Nat) (h : cur < nI) :
    navStep nI nB NavKey.up cur = predMod nI cur := by
  simp only [navStep, candidateList]
  rw [if_pos h, makeRange_desc (nI - 1) 0 (Nat.zero_le _),
    rotateSeq_desc cur (nI - 1) (nI - 1 - 0) (by omega)]
  rcases Nat.eq_zero_or_pos cur with hc0 | hc0
  · subst hc0
    rw [if_neg (by omega)]
    obtain ⟨k, rfl⟩ : ∃ k, nI = k + 1 := ⟨nI - 1, by omega⟩
    rw [(by omega : k + 1 - 1 = k), (by omega : k - 0 + 1 = k + 1), descList]
    rcases Nat.eq_zero_or_pos k with hk0 | hk0
    · subst hk0
      rw [nextStepWalk_same (0 + 1) nB 0 0 _ (by omega)]
      simp only [descList, nextStepWalk]
      unfold predMod
      rw [if_pos rfl]
    · rw [nextStepWalk_pick (k + 1) nB 0 0 k _ (by omega) (by omega)]
      unfold predMod
      rw [if_pos rfl]
      omega
  · rw [if_pos (by omega), (by omega : min cur (nI - 1) = cur),
      (by omega : nI - 1 - 0 - (nI - 1 - cur) = (cur - 1) + 1), descList, List.cons_append,
      nextStepWalk_pick nI nB cur cur (cur - 1) _ (by omega) (by omega)]
    unfold predMod
    rw [if_neg (by omega)]

lemma navStep_up_button (nI nB cur : Nat) (h1 : nI ≤ cur) (h2 : cur < nI + nB) :
    navStep nI nB NavKey.up cur = nI + succMod nB (cur - nI) := by
  have hB : 1 ≤ nB := by omega
  simp only [navStep, candidateList]
  rw [if_neg (by omega), makeRange_asc nI (nI + nB - 1) (by omega),
    rotateSeq_asc cur nI (nI + nB - 1 - nI) h1]
  rcases Nat.lt_or_ge (cur + 1) (nI + nB) with hlt | hge
  · rw [if_pos (by omega),
      (by omega : nI + (nI + nB - 1 - nI) - cur = (nI + nB - cur - 2) + 1),
      ascList, List.cons_append,
      nextStepWalk_pick nI nB cur cur (cur + 1) _ (by omega) (by omega)]
    unfold succMod
    rw [if_neg (by omega)]
    omega
  · rw [if_neg (by omega), (by omega : nI + nB - 1 - nI + 1 = (nB - 1) + 1), ascList]
    rcases Nat.eq_zero_or_pos (nB - 1) with hb1 | hb1
    · have hc : nI = cur := by omega
      subst hc
      rw [nextStepWalk_same nI nB nI nI _ (by omega), hb1]
      simp only [ascList, nextStepWalk]
      unfold succMod
      rw [(by omega : nI - nI = 0), if_pos (by omega)]
      omega
    · rw [nextStepWalk_pick nI nB cur cur nI _ (by omega) (by omega)]
      unfold succMod
      rw [if_pos (by omega)]
      omega

lemma navStep_down_button (nI nB cur : Nat) (h1 : nI ≤ cur) (h2 : cur < nI + nB) :
    navStep nI nB NavKey.down cur = nI + predMod nB (cur - nI) := by
  have hB : 1 ≤ nB := by omega
  simp only [navStep, candidateList]
  rw [if_neg (by omega), makeRange_desc (nI + nB - 1) nI (by omega),
    rotateSeq_desc cur (nI + nB - 1) (nI + nB - 1 - nI) (by omega)]
  rcases Nat.lt_or_ge nI cur with hlt | hge
  · rw [if_pos (by omega), (by omega : min cur (nI + nB - 1) = cur),
      (by omega : nI + nB - 1 - nI - (nI + nB - 1 - cur) = (cur - nI - 1) + 1),
      descList, List.cons_append,
      nextStepWalk_pick nI nB cur cur (cur - 1) _ (by omega) (by omega)]
    unfold predMod
    rw [if_neg (by omega)]
    omega
  · have hc : nI = cur := by omega
    subst hc
    rw [if_neg (by omega), (by omega : nI + nB - 1 - nI + 1 = (nB - 1) + 1), descList]
    rcases Nat.eq_zero_or_pos (nB - 1) with hb1 | hb1
    · rw [(by omega : nI + nB - 1 = nI), nextStepWalk_same nI nB nI nI _ (by omega), hb1]
      simp only [descList, nextStepWalk]
      unfold predMod
      rw [(by omega : nI - nI = 0), if_pos rfl]
      omega
    · rw [nextStepWalk_pick nI nB nI nI (nI + nB - 1) _ (by omega) (by omega)]
      unfold predMod
      rw [(by omega : nI - nI = 0), if_pos rfl]
      omega

lemma succMod_lt (m j : Nat) (h : j < m) : succMod m j < m := by
  unfold succMod
  split <;> omega

lemma predMod_lt (m j : Nat) (h : j < m) : predMod m j < m := by
  unfold predMod
  split <;> omega

lemma iterate_eq_on (f g : Nat → Nat) (P : Nat → Prop)
    (hfg : ∀ x, P x → f x = g x) (hg : ∀ x, P x → P (g x)) :
    ∀ (k : Nat) (x : Nat), P x → f^[k] x = g^[k] x := by
  intro k
  induction k with
  | zero => intro x _; rfl
  | succ k ih =>
    intro x hx
    rw [Function.iterate_succ_apply, Function.iterate_succ_apply, hfg x hx]
    exact ih (g x) (hg x hx)

lemma succMod_iterate (m : Nat) (hm : 0 < m) :
    ∀ (k j : Nat), j < m → (succMod m)^[k] j = (j + k) % m := by
  intro k
  induction k with
  | zero =>
    intro j hj
    simp [Nat.mod_eq_of_lt hj]
  | succ k ih =>
    intro j hj
    rw [Function.iterate_succ_apply]
    have h1 : succMod m j = (j + 1) % m := by
      unfold succMod
      split
      · rename_i he
        rw [he, Nat.mod_self]
      · rw [Nat.mod_eq_of_lt (by omega)]
    rw [h1, ih ((j + 1) % m) (Nat.mod_lt _ hm), Nat.mod_add_mod]
    congr 1
    omega

lemma succMod_cycle (m : Nat) (hm : 0 < m) (j : Nat) (hj : j < m) :
    (succMod m)^[m] j = j := by
  rw [succMod_iterate m hm m j hj, Nat.add_mod_right, Nat.mod_eq_of_lt hj]

lemma predMod_eq_mod (m j : Nat) (hj : j < m) :
    predMod m j = (j + (m - 1)) % m := by
  unfold predMod
  split
  · rename_i he
    rw [he, Nat.zero_add, Nat.mod_eq_of_lt (by omega)]
  · rw [(by omega : j + (m - 1) = (j - 1) + m), Nat.add_mod_right,
      Nat.mod_eq_of_lt (by omega)]

lemma predMod_iterate (m : Nat) (hm : 0 < m) :
    ∀ (k j : Nat), j < m → (predMod m)^[k] j = (j + k * (m - 1)) % m := by
  intro k
  induction k with
  | zero =>
    intro j hj
    simp [Nat.mod_eq_of_lt hj]
  | succ k ih =>
    intro j hj
    rw [Function.iterate_succ_apply, predMod_eq_mod m j hj,
      ih ((j + (m - 1)) % m) (Nat.mod_lt _ hm), Nat.mod_add_mod]
    congr 1
    rw [Nat.succ_mul]
    omega

lemma predMod_cycle (m : Nat) (hm : 0 < m) (j : Nat) (hj : j < m) :
    (predMod m)^[m] j = j := by
  rw [predMod_iterate m hm m j hj, Nat.add_mul_mod_self_left, Nat.mod_eq_of_lt hj]

lemma offsetFun_iterate (nI nB : Nat) (s : Nat → Nat) (hs : ∀ r, r < nB → s r < nB) :
    ∀ (k r : Nat), r < nB → (fun x => nI + s (x - nI))^[k] (nI + r) = nI + s^[k] r := by
  intro k
  induction k with
  | zero => intro r _; rfl
  | succ k ih =>
    intro r hr
    rw [Function.iterate_succ_apply, Function.iterate_succ_apply,
      Nat.add_sub_cancel_left]
    exact ih (s r) (hs r hr)

/-- C1 counterexample: a form with 2 fields and 1 visible button in which
every element accepts focus; pressing Down three times — numFields plus
numVisibleButtons — starting from focus index 0 ends at index 1, not back
at 0: Down only cycles over the fields, so the combined count is not a full
cycle. -/
theorem nav_cycle_counterexample :
    ¬ ((navStep 2 1 NavKey.down)^[2 + 1] 0 = 0) := by
  decide

/-- C1 (amended): provided no element declines focus, each directional key
cycles over its own orbit rather than the whole space.  Tab and Shift+Tab,
started from any index at most numFields, return to the start after
numFields + min(numVisibleButtons, 1) presses (their candidate range covers
the fields and only the first button index).  Up and Down return to the
start after numFields presses when started on a field and after
numVisibleButtons presses when started on a button (they never cross
between fields and buttons).  The claimed count numFields +
numVisibleButtons is a full cycle for all four keys only when no button is
visible. -/
theorem nav_cycle_amended (nI nB start : Nat) (h : start < nI + nB) :
    (start ≤ nI →
      (navStep nI nB NavKey.tab)^[nI + min nB 1] start = start ∧
      (navStep nI nB NavKey.backtab)^[nI + min nB 1] start = start) ∧
    (start < nI →
      (navStep nI nB NavKey.up)^[nI] start = start ∧
      (navStep nI nB NavKey.down)^[nI] start = start) ∧
    (nI ≤ start →
      (navStep nI nB NavKey.up)^[nB] start = start ∧
      (navStep nI nB NavKey.down)^[nB] start = start) := by
  refine ⟨fun hs => ⟨?_, ?_⟩, fun hs => ⟨?_, ?_⟩, fun hs => ⟨?_, ?_⟩⟩
  · have hsM : start < nI + min nB 1 := by omega
    rw [iterate_eq_on (navStep nI nB NavKey.tab) (succMod (nI + min nB 1))
      (fun x => x < nI + min nB 1) (fun x hx => navStep_tab nI nB x hx)
      (fun x hx => succMod_lt _ x hx) _ start hsM]
    exact succMod_cycle _ (by omega) start hsM
  · have hsM : start < nI + min nB 1 := by omega
    rw [iterate_eq_on (navStep nI nB NavKey.backtab) (predMod (nI + min nB 1))
      (fun x => x < nI + min nB 1) (fun x hx => navStep_backtab nI nB x hx)
      (fun x hx => predMod_lt _ x hx) _ start hsM]
    exact predMod_cycle _ (by omega) start hsM
  · rw [iterate_eq_on (navStep nI nB NavKey.up) (predMod nI)
      (fun x => x < nI) (fun x hx => navStep_up_item nI nB x hx)
      (fun x hx => predMod_lt _ x hx) _ start hs]
    exact predMod_cycle nI (by omega) start hs
  · rw [iterate_eq_on (navStep nI nB NavKey.down) (succMod nI)
      (fun x => x < nI) (fun x hx => navStep_down_item nI nB x hx)
      (fun x hx => succMod_lt _ x hx) _ start hs]
    exact succMod_cycle nI (by omega) start hs
  · have hB : 0 < nB := by omega
    rw [iterate_eq_on (navStep nI nB NavKey.up) (fun x => nI + succMod nB (x - nI))
      (fun x => nI ≤ x ∧ x < nI + nB)
      (fun x hx => navStep_up_button nI nB x hx.1 hx.2)
      (fun x hx => by
        obtain ⟨hx1, hx2⟩ := hx
        have hlt := succMod_lt nB (x - nI) (by omega)
        refine ⟨?_, ?_⟩
        · show nI ≤ nI + succMod nB (x - nI)
          omega
        · show nI + succMod nB (x - nI) < nI + nB
          omega)
      nB start ⟨hs, h⟩]
    obtain ⟨r, rfl⟩ : ∃ r, start = nI + r := ⟨start - nI, by omega⟩
    rw [offsetFun_iterate nI nB (succMod nB) (fun r2 hr2 => succMod_lt nB r2 hr2) nB r
      (by omega)]
    rw [succMod_cycle nB hB r (by omega)]
  · have hB : 0 < nB := by omega
    rw [iterate_eq_on (navStep nI nB NavKey.down) (fun x => nI + predMod nB (x - nI))
      (fun x => nI ≤ x ∧ x < nI + nB)
      (fun x hx => navStep_down_button nI nB x hx.1 hx.2)
      (fun x hx => by
        obtain ⟨hx1, hx2⟩ := hx
        have hlt := predMod_lt nB (x - nI) (by omega)
        refine ⟨?_, ?_⟩
        · show nI ≤ nI + predMod nB (x - nI)
          omega
        · show nI + predMod nB (x - nI) < nI + nB
          omega)
      nB start ⟨hs, h⟩]
    obtain ⟨r, rfl⟩ : ∃ r, start = nI + r := ⟨start - nI, by omega⟩
    rw [offsetFun_iterate nI nB (predMod nB) (fun r2 hr2 => predMod_lt nB r2 hr2) nB r
      (by omega)]
    rw [predMod_cycle nB hB r (by omega)]

/-- Witness for C1 (amended) at 2 fields and 1 visible button, everything
accepting focus: Tab and Shift+Tab return to index 0 after 3 presses; Up
and Down return to field index 1 after 2 presses; Up and Down return to
the button index 2 after 1 press. -/
theorem nav_cycle_amended_witness :
    ((navStep 2 1 NavKey.tab)^[2 + min 1 1] 0 = 0 ∧
      (navStep 2 1 NavKey.backtab)^[2 + min 1 1] 0 = 0) ∧
    ((navStep 2 1 NavKey.up)^[2] 1 = 1 ∧ (navStep 2 1 NavKey.down)^[2] 1 = 1) ∧
    ((navStep 2 1 NavKey.up)^[1] 2 = 2 ∧ (navStep 2 1 NavKey.down)^[1] 2 = 2) :=
  ⟨(nav_cycle_amended 2 1 0 (by omega)).1 (by omega),
    (nav_cycle_amended 2 1 1 (by omega)).2.1 (by omega),
    (nav_cycle_amended 2 1 2 (by omega)).2.2 (by omega)⟩

end TviewForm
